import Mathlib

/-!
Verification of the tabular-data access and caching engine of
`data_analysis_agent` (files `core/excel_reader.py` and
`core/reader_manager.py`), as a shallow embedding in Lean 4.

Modelling conventions:
* Python strings are Lean `String`s; the character-level operations the
  source relies on (`strip`, `split(',')`, lexicographic comparison used by
  `sorted`) are re-implemented on `String.data` so that they compute by
  kernel reduction.
* `OrderedDict` is an association list, head = oldest entry,
  last = most-recently-used.  `move_to_end` / item assignment / `popitem`
  are modelled as erase-and-append / drop-from-front.
* Machine floats only arise as outputs of the aggregation reductions
  (`mean`, `median`, `std`, `var`); they are modelled exactly as integer
  ratios (constructor `Val.ratio`), and the square root taken by `std` is
  kept symbolic (constructor `Val.sqrtRatio`).  No verified claim depends
  on those numeric payloads.
* The external pandas decoding calls (`pd.read_excel` / `pd.read_csv`) are
  an oracle field `decode` of `FileEnv`; the on-disk format dispatch and
  its `UnsupportedFormat` failure are folded into that oracle, which can
  return any `RErr`.
* `time.time()` and `st_mtime` values are integers supplied with each
  request; only their ordering and equality are ever used by the source.
-/

/-! ## Character / string groundwork -/

/-- Whitespace characters removed by Python `str.strip()` (ASCII range). -/
def pyWsChars : List Char := [' ', '\t', '\n', '\x0b', '\x0c', '\r']

/-- Is `c` one of the characters Python `str.strip()` removes? -/
def isPyWs (c : Char) : Bool := pyWsChars.contains c

/-- Python `str.strip()`: drop leading and trailing whitespace. -/
def pyStrip (l : List Char) : List Char :=
  ((l.dropWhile isPyWs).reverse.dropWhile isPyWs).reverse

/-- Python `str.split(sep)` for a one-character separator.
`"".split(',') = [""]`, hence the result is never empty. -/
def splitChar (sep : Char) : List Char → List (List Char)
  | [] => [[]]
  | c :: cs =>
    if c = sep then [] :: splitChar sep cs
    else
      match splitChar sep cs with
      | [] => [[c]]
      | p :: ps => (c :: p) :: ps

/-- ASCII model of Python `str.isalpha()`: nonempty and every character a
letter.  (Non-ASCII alphabetic characters are outside this model; every
string the verified claims touch is ASCII.) -/
def pyIsAlpha (l : List Char) : Bool :=
  !l.isEmpty && l.all (fun c => c.isAlpha)

/-- `usecols.replace(':', '').replace(' ', '')` from `_parse_usecols`. -/
def removeColonSpace (l : List Char) : List Char :=
  l.filter (fun c => !(c = ':' : Bool) && !(c = ' ' : Bool))

/-- Lexicographic comparison of character lists by code point, the order
Python `sorted` uses on `str` values. -/
def lexLe : List Char → List Char → Bool
  | [], _ => true
  | _ :: _, [] => false
  | a :: as, b :: bs =>
    if a.toNat < b.toNat then true
    else if b.toNat < a.toNat then false
    else lexLe as bs

/-- Python `<=` on strings. -/
def strLe (a b : String) : Bool := lexLe a.data b.data

/-- Insert into a `strLe`-sorted list of strings. -/
def insertSorted (s : String) : List String → List String
  | [] => [s]
  | t :: ts => if strLe s t then s :: t :: ts else t :: insertSorted s ts

/-- Python `sorted` on a list of strings.  (Insertion sort; for the total
antisymmetric order `strLe` on strings the sorted permutation is unique, so
this agrees with any correct sort.) -/
def sortStrings : List String → List String
  | [] => []
  | s :: ss => insertSorted s (sortStrings ss)

/-- `','.join(l)` from `_normalize_cache_key`. -/
def joinComma : List String → String
  | [] => ""
  | [s] => s
  | s :: ss => s ++ "," ++ joinComma ss

/-- Python `str(...)` rendering of a list of ints, e.g. `"[0, 2]"`; used
only to build cache keys for index-based column selections. -/
def pyReprIntList (l : List Int) : String :=
  "[" ++ go (l.map (fun n => toString n)) ++ "]"
where
  go : List String → String
    | [] => ""
    | [s] => s
    | s :: ss => s ++ ", " ++ go ss

/-- Python `str(...)` rendering of a list of strings, e.g. `"['a']"`;
only the empty-list case `"[]"` is ever reached by `_normalize_cache_key`. -/
def pyReprStrList (l : List String) : String :=
  "[" ++ go l ++ "]"
where
  go : List String → String
    | [] => ""
    | [s] => "'" ++ s ++ "'"
    | s :: ss => "'" ++ s ++ "', " ++ go ss

/-! ## `_parse_usecols` and `_normalize_cache_key` (excel_reader.py) -/

/-- The `usecols` argument accepted by the reader operations:
a raw string, a list of column names, or a list of column indices. -/
inductive UCInput
  | rawStr (s : String)
  | strList (l : List String)
  | intList (l : List Int)
deriving DecidableEq

/-- The result of `_parse_usecols`: a pandas column-letter range string
(e.g. `"A:C"`), a list of column names, or a list of column indices. -/
inductive UCParsed
  | rangeStr (s : String)
  | strList (l : List String)
  | intList (l : List Int)
deriving DecidableEq

/-- `ExcelReader._parse_usecols` (excel_reader.py:457-494). -/
def parse_usecols : Option UCInput → Option UCParsed
  | none => none
  | some (.strList l) => some (.strList l)
  | some (.intList l) => some (.intList l)
  | some (.rawStr s) =>
    if s.data.contains ':' && pyIsAlpha (removeColonSpace s.data) then
      some (.rangeStr s)
    else
      let cols := (splitChar ',' s.data).map pyStrip
      let cols := cols.filter (fun piece => !piece.isEmpty)
      if cols.isEmpty then none
      else some (.strList (cols.map (fun cs => String.mk cs)))

/-- `ExcelReader._normalize_cache_key` (excel_reader.py:496-519).
`sheet_name or 'default'` treats `None` and `""` as missing.  A nonempty
list of string column names is sorted (not deduplicated); every other
selection shape falls back to `str(usecols)`. -/
def normalize_cache_key (sheet_name : Option String) (usecols : Option UCParsed) :
    String :=
  let sheet := match sheet_name with
    | none => "default"
    | some s => if s = "" then "default" else s
  match usecols with
  | none => sheet ++ ":full"
  | some (.strList l) =>
    if l.isEmpty then sheet ++ ":cols:" ++ pyReprStrList l
    else sheet ++ ":cols:" ++ joinComma (sortStrings l)
  | some (.intList l) => sheet ++ ":cols:" ++ pyReprIntList l
  | some (.rangeStr s) => sheet ++ ":cols:" ++ s

/-! ## Cell values and data frames -/

/-- A scalar cell value.  pandas integers are `int`, strings are `str`,
missing values are `null`.  Float-valued aggregation results are modelled
exactly: `ratio n d` stands for the rational `n / d` (denominators are
always positive by construction) and `sqrtRatio n d` stands for
`sqrt (n / d)`, the value `std` produces. -/
inductive Val
  | int (n : Int)
  | ratio (num : Int) (den : Int)
  | sqrtRatio (num : Int) (den : Int)
  | str (s : String)
  | null
deriving DecidableEq

/-- A pandas DataFrame: ordered column names plus rows of cells aligned
positionally with the columns. -/
structure DFrame where
  cols : List String
  rows : List (List Val)
deriving DecidableEq

/-- Index of a column name (first occurrence), `pandas` label lookup. -/
def DFrame.colIndex (df : DFrame) (c : String) : Option Nat :=
  df.cols.findIdx? (fun x => x = c)

/-- The values of one column, top to bottom (empty if the label is absent). -/
def DFrame.colValues (df : DFrame) (c : String) : List Val :=
  match df.colIndex c with
  | none => []
  | some i => df.rows.map (fun r => r.getD i .null)

/-- `df[cs]` column selection by a list of labels; `none` models the
`KeyError` pandas raises when a requested label is absent. -/
def DFrame.select (df : DFrame) (cs : List String) : Option DFrame :=
  if cs.all (fun c => (df.colIndex c).isSome) then
    some ⟨cs, df.rows.map (fun r => cs.map (fun c => r.getD ((df.colIndex c).getD 0) .null))⟩
  else none

/-! ## OrderedDict modelled as an association list (head = oldest) -/

/-- `d[k]` lookup. -/
def odLookup {β : Type} (l : List (String × β)) (k : String) : Option β :=
  match l.find? (fun p => p.1 = k) with
  | none => none
  | some p => some p.2

/-- `del d[k]`. -/
def odErase {β : Type} (l : List (String × β)) (k : String) : List (String × β) :=
  l.filter (fun p => !(p.1 = k : Bool))

/-- `d[k] = v` followed by `d.move_to_end(k)`: bind `k` and make it the
most-recently-used entry. -/
def odInsertMRU {β : Type} (l : List (String × β)) (k : String) (v : β) :
    List (String × β) :=
  odErase l k ++ [(k, v)]

/-- `d.move_to_end(k)` keeping the stored value. -/
def odMoveToEnd {β : Type} (l : List (String × β)) (k : String) :
    List (String × β) :=
  match odLookup l k with
  | none => l
  | some v => odErase l k ++ [(k, v)]

/-- `while len(d) > maxEntries: d.popitem(last=False)` — drop oldest
entries from the front until the bound holds. -/
def odEvict {β : Type} (maxEntries : Nat) (l : List (String × β)) :
    List (String × β) :=
  l.drop (l.length - maxEntries)

/-! ## ExcelReader state and `_read_file` -/

/-- Error taxonomy of the engine (the source raises `FileNotFoundError`,
`ValueError` and pandas `KeyError`; the spec names them `FileNotFound`,
`UnsupportedFormat`, `AggregationError`, `ColumnNotFound`; `decodeError`
stands for any failure inside the external decoding collaborator). -/
inductive RErr
  | fileNotFound
  | unsupportedFormat
  | decodeError
  | aggregationError
  | columnNotFound
deriving DecidableEq

/-- One `ExcelReader._cache` entry: `(df, mtime)`. -/
structure CacheEntry where
  df : DFrame
  mtime : Int
deriving DecidableEq

/-- The mutable state of one `ExcelReader` (excel_reader.py:40-52).
The row-count cache is keyed by sheet only and never touched by
`_read_file`, so it is carried unchanged by every operation modelled here. -/
structure ReaderState where
  enable_cache : Bool
  max_cache_size : Nat
  cache : List (String × CacheEntry)
  row_count_cache : List (String × Int × Int)
  cache_hits : Nat
  cache_misses : Nat
deriving DecidableEq

/-- A fresh `ExcelReader(file_path, enable_cache=True, max_cache_size=m)`
(for an existing file; construction on a missing file raises and is
modelled at the registry level). -/
def freshReader (m : Nat) : ReaderState :=
  { enable_cache := true, max_cache_size := m, cache := [],
    row_count_cache := [], cache_hits := 0, cache_misses := 0 }

/-- The file as the engine observes it during one call: the current
modification time, and the external decoding collaborator
(`pd.read_excel` / `pd.read_csv`, including the extension dispatch and its
possible `UnsupportedFormat` failure). -/
structure FileEnv where
  mtime : Int
  decode : Option String → Option UCParsed → Except RErr DFrame

/-- Tail of `_read_file` after a cache miss (excel_reader.py:578-616):
decode the file, then — when caching is enabled — insert the entry as
most-recently-used and evict the least-recently-used entries while the
store exceeds `max_cache_size`.  A decode failure propagates and commits
nothing. -/
def read_file_decode (st : ReaderState) (env : FileEnv)
    (sheet_name : Option String) (parsed : Option UCParsed) (key : String)
    (mtime : Int) : ReaderState × Except RErr DFrame :=
  match env.decode sheet_name parsed with
  | .error e => (st, .error e)
  | .ok df =>
    if st.enable_cache then
      ({ st with cache := odEvict st.max_cache_size (odInsertMRU st.cache key ⟨df, mtime⟩) },
       .ok df)
    else (st, .ok df)

/-- The derived-subset probe of `_read_file` (excel_reader.py:552-573):
when a column subset is requested and a still-valid `"full"`-keyed entry
exists, slice it to the requested columns.  `none` covers every way the
probe falls through to a miss — no subset requested, no valid full entry,
or the slice raising `KeyError` (which the source catches); an index-list
or range-string subscript on a string-labelled frame is in the last
group. -/
def derivedSlice (st : ReaderState) (sheet_name : Option String)
    (parsed : Option UCParsed) (mtime : Int) : Option DFrame :=
  match parsed with
  | some (.strList cs) =>
    match odLookup st.cache (normalize_cache_key sheet_name none) with
    | some fe => if fe.mtime = mtime then fe.df.select cs else none
    | none => none
  | some _ => none
  | none => none

/-- Steps 2-3 of the cached `_read_file` path once the exact-key probe has
failed (excel_reader.py:552-576): try the derived-subset hit against the
`"full"`-keyed entry, otherwise count a miss and decode.  NOTE (faithful to
the source): the derived-subset store does NOT run the eviction loop. -/
def read_file_no_exact (st : ReaderState) (env : FileEnv)
    (sheet_name : Option String) (parsed : Option UCParsed) (key : String)
    (mtime : Int) : ReaderState × Except RErr DFrame :=
  match derivedSlice st sheet_name parsed mtime with
  | some sub =>
    ({ st with cache := odInsertMRU st.cache key ⟨sub, mtime⟩,
               cache_hits := st.cache_hits + 1 },
     .ok sub)
  | none =>
    read_file_decode { st with cache_misses := st.cache_misses + 1 }
      env sheet_name parsed key mtime

/-- `ExcelReader._read_file` (excel_reader.py:521-616): normalize the
selection, probe the cache for an exact hit, then a derived-subset hit,
then decode and store.  Returned values are defensive copies in the
source; copies are identities in this pure model. -/
def read_file (st : ReaderState) (env : FileEnv) (sheet_name : Option String)
    (usecols : Option UCInput) : ReaderState × Except RErr DFrame :=
  let parsed := parse_usecols usecols
  let key := normalize_cache_key sheet_name parsed
  if st.enable_cache then
    let mtime := env.mtime
    match odLookup st.cache key with
    | some e =>
      if e.mtime = mtime then
        ({ st with cache := odMoveToEnd st.cache key,
                   cache_hits := st.cache_hits + 1 },
         .ok e.df)
      else read_file_no_exact st env sheet_name parsed key mtime
    | none => read_file_no_exact st env sheet_name parsed key mtime
  else
    match env.decode sheet_name parsed with
    | .error e => (st, .error e)
    | .ok df => (st, .ok df)

/-! ## Scalar comparison and exact-ratio arithmetic

pandas cell comparisons and numeric reductions are defined here for
homogeneous columns (all numbers, or all strings); on the mixed-dtype or
null corners where pandas itself raises `TypeError` or yields NaN these
functions return `false` / `Val.null`.  Every denominator produced below is
positive (inputs are `int n ↦ n / 1`, and the only divisors are positive
counts), which the cross-multiplication comparisons rely on. -/

/-- Numeric view of a value, as an exact `num / den` pair. -/
def Val.toRatio : Val → Option (Int × Int)
  | .int n => some (n, 1)
  | .ratio n d => some (n, d)
  | _ => none

/-- pandas `==` on cells (`NaN == x` is false). -/
def valEqB (a b : Val) : Bool :=
  match a.toRatio, b.toRatio with
  | some (n₁, d₁), some (n₂, d₂) => n₁ * d₂ = n₂ * d₁
  | _, _ =>
    match a, b with
    | .str s₁, .str s₂ => s₁ = s₂
    | _, _ => false

/-- pandas `<` on cells. -/
def valLtB (a b : Val) : Bool :=
  match a.toRatio, b.toRatio with
  | some (n₁, d₁), some (n₂, d₂) => n₁ * d₂ < n₂ * d₁
  | _, _ =>
    match a, b with
    | .str s₁, .str s₂ => strLe s₁ s₂ && !(s₁ = s₂ : Bool)
    | _, _ => false

/-- pandas `<=` on cells. -/
def valLeB (a b : Val) : Bool :=
  match a.toRatio, b.toRatio with
  | some (n₁, d₁), some (n₂, d₂) => n₁ * d₂ ≤ n₂ * d₁
  | _, _ =>
    match a, b with
    | .str s₁, .str s₂ => strLe s₁ s₂
    | _, _ => false

/-- Does `needle` appear at the start of `hay`? -/
def listStarts : List Char → List Char → Bool
  | [], _ => true
  | _ :: _, [] => false
  | a :: as, b :: bs => (a = b : Bool) && listStarts as bs

/-- Is `needle` a contiguous substring of `hay`? -/
def listSub (needle : List Char) : List Char → Bool
  | [] => needle.isEmpty
  | c :: t => listStarts needle (c :: t) || listSub needle t

/-- Python `str(...)` of a cell, used by the `contains` filter.  The
decimal text of a float is not modelled (no verified claim reads it); a
ratio is rendered as `num/den`. -/
def pyStrOfVal : Val → String
  | .int n => toString n
  | .ratio n d => toString n ++ "/" ++ toString d
  | .sqrtRatio n d => "sqrt(" ++ toString n ++ "/" ++ toString d ++ ")"
  | .str s => s
  | .null => "nan"

/-! ## `_apply_filters` (excel_reader.py:720-744) -/

/-- One filter clause as `query` receives it: `f.get("column")`,
`f.get("operator", "=")`, `f.get("value")` already applied. -/
structure FilterClause where
  column : Option String
  op : String
  value : Val
deriving DecidableEq

/-- One iteration of the `_apply_filters` loop: unknown (or missing)
columns make the clause a no-op, an unrecognized operator matches no
branch of the `if/elif` chain and leaves the rows unchanged. -/
def applyOneFilter (df : DFrame) (f : FilterClause) : DFrame :=
  match f.column with
  | none => df
  | some col =>
    match df.colIndex col with
    | none => df
    | some i =>
      let keep : Val → Bool :=
        if f.op = "=" then fun v => valEqB v f.value
        else if f.op = "!=" then fun v => !(valEqB v f.value)
        else if f.op = ">" then fun v => valLtB f.value v
        else if f.op = "<" then fun v => valLtB v f.value
        else if f.op = ">=" then fun v => valLeB f.value v
        else if f.op = "<=" then fun v => valLeB v f.value
        else if f.op = "contains" then
          fun v =>
            match v with
            | .null => false
            | v => listSub (pyStrOfVal f.value).data (pyStrOfVal v).data
        else fun _ => true
      ⟨df.cols, df.rows.filter (fun r => keep (r.getD i .null))⟩

/-- `ExcelReader._apply_filters`. -/
def apply_filters (df : DFrame) (fs : List FilterClause) : DFrame :=
  fs.foldl applyOneFilter df

/-! ## `_group_and_aggregate` (excel_reader.py:746-794) -/

/-- Exact rational arithmetic on `num / den` pairs (no normalization;
denominators stay positive). -/
def ratAdd (a b : Int × Int) : Int × Int := (a.1 * b.2 + b.1 * a.2, a.2 * b.2)

/-- Exact rational subtraction. -/
def ratSub (a b : Int × Int) : Int × Int := (a.1 * b.2 - b.1 * a.2, a.2 * b.2)

/-- Exact rational multiplication. -/
def ratMul (a b : Int × Int) : Int × Int := (a.1 * b.1, a.2 * b.2)

/-- Exact rational division (only ever applied with a positive divisor). -/
def ratDiv (a b : Int × Int) : Int × Int := (a.1 * b.2, a.2 * b.1)

/-- Comparison of `num / den` pairs with positive denominators. -/
def ratLeB (a b : Int × Int) : Bool := a.1 * b.2 ≤ b.1 * a.2

/-- Insert into a `ratLeB`-sorted list. -/
def ratInsert (q : Int × Int) : List (Int × Int) → List (Int × Int)
  | [] => [q]
  | t :: ts => if ratLeB q t then q :: t :: ts else t :: ratInsert q ts

/-- Sort ratios ascending (for `median`). -/
def ratSort : List (Int × Int) → List (Int × Int)
  | [] => []
  | q :: qs => ratInsert q (ratSort qs)

/-- All values as ints, if the column is purely integral. -/
def allInts : List Val → Option (List Int)
  | [] => some []
  | .int n :: vs => (allInts vs).map (fun l => n :: l)
  | _ => none

/-- All values as exact ratios, if the column is purely numeric. -/
def allNums : List Val → Option (List (Int × Int))
  | [] => some []
  | v :: vs =>
    match v.toRatio with
    | some q => (allNums vs).map (fun l => q :: l)
    | none => none

/-- All values as strings, if the column is purely textual. -/
def allStrs : List Val → Option (List String)
  | [] => some []
  | .str s :: vs => (allStrs vs).map (fun l => s :: l)
  | _ => none

/-- pandas `sum` reduction (ints stay ints, strings concatenate, empty
input sums to 0). -/
def aggSum (vs : List Val) : Val :=
  match allInts vs with
  | some l => .int (l.foldl (fun a b => a + b) 0)
  | none =>
    match allNums vs with
    | some qs => let q := qs.foldl ratAdd (0, 1); .ratio q.1 q.2
    | none =>
      match allStrs vs with
      | some ss => .str (ss.foldl (fun a b => a ++ b) "")
      | none => .null

/-- pandas `mean` reduction. -/
def aggMean (vs : List Val) : Val :=
  match allNums vs with
  | some [] => .null
  | some qs => let s := qs.foldl ratAdd (0, 1); .ratio s.1 (s.2 * qs.length)
  | none => .null

/-- pandas `min` reduction (well-defined on a homogeneous column). -/
def aggMin (vs : List Val) : Val :=
  match vs with
  | [] => .null
  | v :: rest => rest.foldl (fun a b => if valLeB b a then b else a) v

/-- pandas `max` reduction (well-defined on a homogeneous column). -/
def aggMax (vs : List Val) : Val :=
  match vs with
  | [] => .null
  | v :: rest => rest.foldl (fun a b => if valLeB a b then b else a) v

/-- pandas `median` reduction (average of the two middles when even). -/
def aggMedian (vs : List Val) : Val :=
  match allNums vs with
  | some [] => .null
  | some qs =>
    let sq := ratSort qs
    let n := sq.length
    if n % 2 = 1 then
      let q := sq.getD (n / 2) (0, 1)
      .ratio q.1 q.2
    else
      let a := sq.getD (n / 2 - 1) (0, 1)
      let b := sq.getD (n / 2) (0, 1)
      let s := ratAdd a b
      .ratio s.1 (s.2 * 2)
  | none => .null

/-- pandas `var` reduction, sample variance (`ddof=1`; NaN when fewer than
two values). -/
def aggVar (vs : List Val) : Val :=
  match allNums vs with
  | some qs =>
    if qs.length ≤ 1 then .null
    else
      let s := qs.foldl ratAdd (0, 1)
      let s2 := qs.foldl (fun a q => ratAdd a (ratMul q q)) (0, 1)
      let num := ratSub s2 (ratDiv (ratMul s s) ((qs.length : Int), 1))
      let v := ratDiv num ((qs.length : Int) - 1, 1)
      .ratio v.1 v.2
  | none => .null

/-- pandas `std` reduction: the square root of the sample variance, kept
symbolic. -/
def aggStd (vs : List Val) : Val :=
  match aggVar vs with
  | .ratio n d => .sqrtRatio n d
  | _ => .null

/-- The reduction named `f` applied to the aggregate-column values of one
group (NaN values are skipped, as pandas does). -/
def aggReduce (f : String) (vs0 : List Val) : Val :=
  let vs := vs0.filter (fun v => !(v = Val.null : Bool))
  if f = "sum" then aggSum vs
  else if f = "mean" then aggMean vs
  else if f = "min" then aggMin vs
  else if f = "max" then aggMax vs
  else if f = "median" then aggMedian vs
  else if f = "std" then aggStd vs
  else if f = "var" then aggVar vs
  else if f = "first" then vs.headD .null
  else if f = "last" then vs.getLastD .null
  else if f = "count" then .int vs.length
  else if f = "nunique" then .int vs.dedup.length
  else .null

/-- The `agg_funcs` lookup table of `_group_and_aggregate`
(excel_reader.py:762-774). -/
def agg_funcs : List (String × String) :=
  [("sum", "sum"), ("avg", "mean"), ("count", "count"), ("min", "min"),
   ("max", "max"), ("median", "median"), ("std", "std"), ("var", "var"),
   ("first", "first"), ("last", "last"), ("nunique", "nunique")]

/-- Python `a or b` for an optional string `a` (`None` and `""` are
falsy). -/
def pyOrStr (a : Option String) (b : String) : String :=
  match a with
  | none => b
  | some s => if s = "" then b else s

/-- Insert into a `valLeB`-sorted list. -/
def valInsert (v : Val) : List Val → List Val
  | [] => [v]
  | t :: ts => if valLeB v t then v :: t :: ts else t :: valInsert v ts

/-- Sort cell values ascending (well-defined on a homogeneous column, the
only case in which pandas can sort group keys at all). -/
def sortVals : List Val → List Val
  | [] => []
  | v :: vs => valInsert v (sortVals vs)

/-- The group keys `df.groupby(col)` iterates: distinct non-null values of
the column, in sorted order (`sort=True` is the pandas default). -/
def distinctSortedKeys (vs : List Val) : List Val :=
  sortVals ((vs.filter (fun v => !(v = Val.null : Bool))).dedup)

/-- The rows of one group: rows whose cell at column index `i` equals the
key. -/
def groupRows (df : DFrame) (i : Nat) (k : Val) : List (List Val) :=
  df.rows.filter (fun r => (r.getD i .null = k : Bool))

/-- `ExcelReader._group_and_aggregate` (excel_reader.py:746-794).
An unknown aggregation name raises `ValueError` from the lookup table;
`count` and `nunique` are both dispatched to `df.groupby(...).size()` (the
`"nunique"` entry of `agg_funcs` is never consulted on that branch); every
other aggregation raises `ValueError` when `aggregate_column` is falsy and
otherwise reduces the aggregate column per group.  A missing group or
aggregate column label makes pandas raise `KeyError`. -/
def group_and_aggregate (df : DFrame) (group_by : String) (aggregation : String)
    (aggregate_column : Option String) : Except RErr DFrame :=
  match odLookup agg_funcs aggregation with
  | none => .error .aggregationError
  | some agg_func =>
    if aggregation = "count" || aggregation = "nunique" then
      match df.colIndex group_by with
      | none => .error .columnNotFound
      | some i =>
        let keys := distinctSortedKeys (df.rows.map (fun r => r.getD i .null))
        .ok ⟨[group_by, pyOrStr aggregate_column aggregation],
             keys.map (fun k => [k, .int (groupRows df i k).length])⟩
    else
      match aggregate_column with
      | none => .error .aggregationError
      | some ac =>
        if ac = "" then .error .aggregationError
        else
          match df.colIndex group_by, df.colIndex ac with
          | some i, some j =>
            let keys := distinctSortedKeys (df.rows.map (fun r => r.getD i .null))
            .ok ⟨[group_by, ac],
                 keys.map (fun k =>
                   [k, aggReduce agg_func
                         ((groupRows df i k).map (fun r => r.getD j .null))])⟩
          | _, _ => .error .columnNotFound

/-! ## `query` (excel_reader.py:139-224) -/

/-- Row comparison used by `df.sort_values(by, ascending)`. -/
def rowLeByCol (i : Nat) (asc : Bool) (r₁ r₂ : List Val) : Bool :=
  if asc then valLeB (r₁.getD i .null) (r₂.getD i .null)
  else valLeB (r₂.getD i .null) (r₁.getD i .null)

/-- Insert a row into a sorted row list. -/
def rowInsert (le : List Val → List Val → Bool) (r : List Val) :
    List (List Val) → List (List Val)
  | [] => [r]
  | t :: ts => if le r t then r :: t :: ts else t :: rowInsert le r ts

/-- Sort rows (the relative order of tied rows is unspecified by the
pandas default quicksort; this model fixes one order). -/
def sortRows (le : List Val → List Val → Bool) : List (List Val) → List (List Val)
  | [] => []
  | r :: rs => rowInsert le r (sortRows le rs)

/-- `df.sort_values(by=order_by, ascending=asc)`. -/
def sort_values (df : DFrame) (order_by : String) (asc : Bool) : DFrame :=
  match df.colIndex order_by with
  | none => df
  | some i => ⟨df.cols, sortRows (rowLeByCol i asc) df.rows⟩

/-- The keyword arguments of `ExcelReader.query`, with the Python defaults
(`order="asc"`, `limit=100`) already substituted by the caller. -/
structure QueryArgs where
  filters : Option (List FilterClause)
  group_by : Option String
  aggregation : Option String
  aggregate_column : Option String
  order_by : Option String
  order : String
  limit : Nat
  sheet_name : Option String
  usecols : Option UCInput

/-- Python truthiness of an optional string (`None` and `""` are falsy). -/
def pyTruthy : Option String → Bool
  | none => false
  | some s => !(s = "" : Bool)

/-- `ExcelReader.query` (excel_reader.py:139-224) up to the aggregated
DataFrame: validate that `group_by` and `aggregation` are supplied (the
`ValueError` raised otherwise precedes any read, so the reader state is
returned untouched), read the selected columns through the cache, filter,
group-and-aggregate, sort when `order_by` names an output column, truncate
to `limit` rows.  The final packaging of the two-column frame into
labels/values/zipped arrays is presentation and not modelled. -/
def query (st : ReaderState) (env : FileEnv) (a : QueryArgs) :
    ReaderState × Except RErr DFrame :=
  if !(pyTruthy a.group_by) || !(pyTruthy a.aggregation) then
    (st, .error .aggregationError)
  else
    match read_file st env a.sheet_name a.usecols with
    | (st₁, .error e) => (st₁, .error e)
    | (st₁, .ok df) =>
      let fs := a.filters.getD []
      let df₁ := if fs.isEmpty then df else apply_filters df fs
      match group_and_aggregate df₁ (a.group_by.getD "") (a.aggregation.getD "")
          a.aggregate_column with
      | .error e => (st₁, .error e)
      | .ok df₂ =>
        let df₃ :=
          if pyTruthy a.order_by && df₂.cols.contains (a.order_by.getD "") then
            sort_values df₂ (a.order_by.getD "") (a.order = "asc")
          else df₂
        (st₁, .ok ⟨df₃.cols, df₃.rows.take a.limit⟩)

/-! ## ReaderManager (reader_manager.py)

`Path(file_path).resolve()` is modelled as the identity: requests carry the
canonical path.  The `ExcelReader` objects the registry stores are
represented by construction numbers (`next_id` counts every successful
`ExcelReader(...)` construction); their internal caches play no role in the
registry-level claims. -/

/-- One `ReaderManager._readers` entry: `(reader, last_used_time)`. -/
structure MEntry where
  reader_id : Nat
  last_used : Int
deriving DecidableEq

/-- The mutable state of the `ReaderManager` singleton
(reader_manager.py:43-61). -/
structure MState where
  readers : List (String × MEntry)
  max_readers : Nat
  idle_timeout : Int
  hits : Nat
  misses : Nat
  next_id : Nat
deriving DecidableEq

/-- The freshly initialized manager (`max_readers=5`, `idle_timeout=300`
in the source; both kept as parameters). -/
def managerInit (maxR : Nat) (idleT : Int) : MState :=
  { readers := [], max_readers := maxR, idle_timeout := idleT,
    hits := 0, misses := 0, next_id := 0 }

/-- One `get_reader` call as the manager observes the world: the
canonicalized path, `time.time()` at the call, and the file's existence
and modification time. -/
structure MReq where
  path : String
  time : Int
  fileExists : Bool
  mtime : Int
deriving DecidableEq

/-- `ReaderManager._is_file_modified` (reader_manager.py:112-122): a
vanished file counts as modified; otherwise modified iff the mtime is
strictly newer than the stored last-used time. -/
def is_file_modified (req : MReq) (last_used : Int) : Bool :=
  if !req.fileExists then true
  else decide (req.mtime > last_used)

/-- The idle sweep of `_cleanup_if_needed`: remove every entry unused for
strictly longer than `idle_timeout`. -/
def evictIdle (now idleT : Int) (readers : List (String × MEntry)) :
    List (String × MEntry) :=
  readers.filter (fun p => decide (now - p.2.last_used ≤ idleT))

/-- The capacity sweep of `_cleanup_if_needed`:
`while len(readers) >= max_readers: remove oldest`.  For `max_readers = 0`
the source would raise on the final pop; this model (reached only under the
hypothesis `1 ≤ max_readers` in the theorems below) empties the list. -/
def evictOverCap (maxR : Nat) (readers : List (String × MEntry)) :
    List (String × MEntry) :=
  if readers.length < maxR then readers
  else readers.drop (readers.length - maxR + 1)

/-- `ReaderManager._cleanup_if_needed` (reader_manager.py:124-140). -/
def cleanup_if_needed (now : Int) (st : MState) : MState :=
  { st with readers :=
      evictOverCap st.max_readers (evictIdle now st.idle_timeout st.readers) }

/-- The construction tail of `get_reader` (reader_manager.py:97-110):
count a miss, run the cleanup, construct `ExcelReader(file_path)` — which
raises `FileNotFoundError` for a missing file, before anything is
registered — and register the new reader as most recent. -/
def constructAndRegister (st : MState) (req : MReq) :
    MState × Except RErr Nat :=
  let st₁ := cleanup_if_needed req.time { st with misses := st.misses + 1 }
  if req.fileExists then
    ({ st₁ with
        readers := st₁.readers ++ [(req.path, ⟨st₁.next_id, req.time⟩)],
        next_id := st₁.next_id + 1 },
     .ok st₁.next_id)
  else
    (st₁, .error .fileNotFound)

/-- `ReaderManager.get_reader` (reader_manager.py:63-110).  A registered,
unmodified entry is reused (bump recency and last-used time, count a hit);
a registered but modified entry is discarded with `self._misses += 1` and
then rebuilt through the construction tail, which counts a second miss. -/
def get_reader (st : MState) (req : MReq) : MState × Except RErr Nat :=
  match odLookup st.readers req.path with
  | some e =>
    if is_file_modified req e.last_used then
      constructAndRegister
        { st with readers := odErase st.readers req.path,
                  misses := st.misses + 1 } req
    else
      ({ st with
          readers := odInsertMRU st.readers req.path ⟨e.reader_id, req.time⟩,
          hits := st.hits + 1 },
       .ok e.reader_id)
  | none => constructAndRegister st req

/-- Fold a sequence of `get_reader` calls over the manager state. -/
def runGetReaders (st : MState) (reqs : List MReq) : MState :=
  reqs.foldl (fun s r => (get_reader s r).1) st

/-! ### Trace classification (specification-side, for the counter claims) -/

/-- Does this call reuse a registered, unmodified accessor? -/
def isReuseCall (st : MState) (req : MReq) : Bool :=
  match odLookup st.readers req.path with
  | some e => !is_file_modified req e.last_used
  | none => false

/-- Does this call discard a registered but stale accessor? -/
def isStaleDiscard (st : MState) (req : MReq) : Bool :=
  match odLookup st.readers req.path with
  | some e => is_file_modified req e.last_used
  | none => false

/-- Number of calls in the trace that reuse an accessor. -/
def countReuse : MState → List MReq → Nat
  | _, [] => 0
  | st, r :: rs =>
    (if isReuseCall st r then 1 else 0) + countReuse (get_reader st r).1 rs

/-- Number of calls in the trace that do not reuse an accessor. -/
def countNonReuse : MState → List MReq → Nat
  | _, [] => 0
  | st, r :: rs =>
    (if isReuseCall st r then 0 else 1) + countNonReuse (get_reader st r).1 rs

/-- Number of calls in the trace that discard a stale accessor. -/
def countStale : MState → List MReq → Nat
  | _, [] => 0
  | st, r :: rs =>
    (if isStaleDiscard st r then 1 else 0) + countStale (get_reader st r).1 rs

/-- Decidable equality for `Except`, so that concrete runs of the model
can be checked by `decide`. -/
instance exceptDecEq {α β : Type} [DecidableEq α] [DecidableEq β] :
    DecidableEq (Except α β) := fun x y =>
  match x, y with
  | .ok a, .ok b =>
    if h : a = b then .isTrue (by rw [h]) else .isFalse (by simp [h])
  | .error a, .error b =>
    if h : a = b then .isTrue (by rw [h]) else .isFalse (by simp [h])
  | .ok _, .error _ => .isFalse (by simp)
  | .error _, .ok _ => .isFalse (by simp)

/-! ## Concrete fixtures for the counterexample and witness evaluations -/

/-- A small spreadsheet with columns A, B, C and one data row. -/
def dfABC : DFrame := ⟨["A", "B", "C"], [[.int 1, .int 2, .int 3]]⟩

/-- Its A column, as `dfABC.select ["A"]` produces it. -/
def dfA : DFrame := ⟨["A"], [[.int 1]]⟩

/-- File environment for `dfABC`: decoding honours string column
selections exactly as pandas does on this file, and `mtime` is stable
across the traces below (the file is never modified). -/
def envABC : FileEnv :=
  { mtime := 100,
    decode := fun _ parsed =>
      match parsed with
      | none => .ok dfABC
      | some (.strList cs) =>
        match dfABC.select cs with
        | some d => .ok d
        | none => .error .columnNotFound
      | some _ => .error .columnNotFound }

/-- An environment whose decode always fails (e.g. a corrupt file). -/
def envFail : FileEnv :=
  { mtime := 100, decode := fun _ _ => .error .decodeError }

/-- C1 trace, step 1: full read on a fresh reader with
`max_cache_size = 1` (miss, store, evicted down to the bound). -/
def c1st1 : ReaderState := (read_file (freshReader 1) envABC none none).1

/-- C1 trace, step 2: subset read of column A (derived-subset hit, stored
with no eviction pass). -/
def c1st2 : ReaderState :=
  (read_file c1st1 envABC none (some (.strList ["A"]))).1

/-- C5 trace, step 1: `read(columns=["A","B","C"])` on a fresh reader
(cached under the `cols:A,B,C` key, not the `full` key). -/
def c5st1 : ReaderState :=
  (read_file (freshReader 10) envABC none (some (.strList ["A", "B", "C"]))).1

/-- C5 trace, step 2: the follow-up `read(columns=["A"])`. -/
def c5r2 : ReaderState × Except RErr DFrame :=
  read_file c5st1 envABC none (some (.strList ["A"]))

/-- The two-row frame on which the `nunique` aggregation is evaluated:
group column `g`, value column `v`, one group of two equal values. -/
def dfNu : DFrame := ⟨["g", "v"], [[.str "east", .str "x"], [.str "east", .str "x"]]⟩

/-- C8 trace, call 1: construct a reader for path `p` at time 10. -/
def c8req1 : MReq := ⟨"p", 10, true, 5⟩

/-- C8 trace, call 2: same path at time 20, file modified at time 15
(newer than the stored last-used time 10, hence stale). -/
def c8req2 : MReq := ⟨"p", 20, true, 15⟩

/-- C8 trace: the manager state after both calls. -/
def c8st : MState := runGetReaders (managerInit 5 300) [c8req1, c8req2]

/-- QueryArgs with every aggregation parameter missing (C4 witness). -/
def qaEmpty : QueryArgs :=
  { filters := none, group_by := none, aggregation := none,
    aggregate_column := none, order_by := none, order := "asc",
    limit := 100, sheet_name := none, usecols := none }

/-- A manager state holding one registered reader for path `p`
(C9 witness). -/
def mStP : MState :=
  { readers := [("p", ⟨0, 10⟩)], max_readers := 5, idle_timeout := 300,
    hits := 0, misses := 0, next_id := 1 }

/-- A `get_reader` request for path `p` whose file has vanished
(C9 witness). -/
def reqGone : MReq := ⟨"p", 20, false, 0⟩

/-- A short request sequence against a fresh registry (C6 witness). -/
def c6reqs : List MReq := [⟨"q", 0, true, 0⟩, ⟨"r", 1, true, 0⟩]

/-! ## Order lemmas for `strLe` (needed for sort-key invariance) -/

theorem lexLe_total (a b : List Char) : lexLe a b = true ∨ lexLe b a = true := by
  induction a generalizing b with
  | nil => left; rfl
  | cons x xs ih =>
    cases b with
    | nil => right; rfl
    | cons y ys =>
      simp only [lexLe]
      rcases Nat.lt_trichotomy x.toNat y.toNat with h | h | h
      · left; simp [h]
      · have h2 : ¬ x.toNat < y.toNat := by omega
        have h3 : ¬ y.toNat < x.toNat := by omega
        simpa [h2, h3] using ih ys
      · right; simp [h]

theorem lexLe_antisymm {a b : List Char} (h1 : lexLe a b = true)
    (h2 : lexLe b a = true) : a = b := by
  induction a generalizing b with
  | nil =>
    cases b with
    | nil => rfl
    | cons y ys => simp [lexLe] at h2
  | cons x xs ih =>
    cases b with
    | nil => simp [lexLe] at h1
    | cons y ys =>
      simp only [lexLe] at h1 h2
      by_cases hxy : x.toNat < y.toNat
      · have : ¬ y.toNat < x.toNat := by omega
        simp [hxy, this] at h2
      · by_cases hyx : y.toNat < x.toNat
        · simp [hxy, hyx] at h1
        · have hx : x = y := by
            apply Char.ext
            apply UInt32.ext
            have : x.toNat = y.toNat := by omega
            simpa [Char.toNat, UInt32.toNat] using this
          simp [hxy, hyx] at h1 h2
          rw [hx, ih h1 h2]

theorem lexLe_trans {a b c : List Char} (h1 : lexLe a b = true)
    (h2 : lexLe b c = true) : lexLe a c = true := by
  induction a generalizing b c with
  | nil => rfl
  | cons x xs ih =>
    cases b with
    | nil => simp [lexLe] at h1
    | cons y ys =>
      cases c with
      | nil => simp [lexLe] at h2
      | cons z zs =>
        simp only [lexLe] at h1 h2 ⊢
        by_cases hxy : x.toNat < y.toNat <;> by_cases hyz : y.toNat < z.toNat
        · simp [show x.toNat < z.toNat by omega]
        · by_cases hzy : z.toNat < y.toNat
          · simp [hyz, hzy] at h2
          · simp [show x.toNat < z.toNat by omega]
        · by_cases hyx : y.toNat < x.toNat
          · simp [hxy, hyx] at h1
          · simp [show x.toNat < z.toNat by omega]
        · by_cases hyx : y.toNat < x.toNat
          · simp [hxy, hyx] at h1
          · by_cases hzy : z.toNat < y.toNat
            · simp [hyz, hzy] at h2
            · have hxz : ¬ x.toNat < z.toNat := by omega
              have hzx : ¬ z.toNat < x.toNat := by omega
              simp only [hxy, hyx, if_false] at h1
              simp only [hyz, hzy, if_false] at h2
              simp [hxz, hzx, ih h1 h2]

theorem strLe_total (a b : String) : strLe a b = true ∨ strLe b a = true :=
  lexLe_total a.data b.data

theorem strLe_antisymm {a b : String} (h1 : strLe a b = true)
    (h2 : strLe b a = true) : a = b := by
  cases a with
  | mk la =>
    cases b with
    | mk lb =>
      have : la = lb := lexLe_antisymm h1 h2
      rw [this]

theorem strLe_trans {a b c : String} (h1 : strLe a b = true)
    (h2 : strLe b c = true) : strLe a c = true :=
  lexLe_trans h1 h2

theorem insertSorted_perm (s : String) (l : List String) :
    (insertSorted s l).Perm (s :: l) := by
  induction l with
  | nil => exact List.Perm.refl _
  | cons t ts ih =>
    simp only [insertSorted]
    by_cases h : strLe s t = true
    · simp [h]
    · simp only [h, if_false]
      exact (List.Perm.cons t ih).trans (List.Perm.swap s t ts)

theorem sortStrings_perm (l : List String) : (sortStrings l).Perm l := by
  induction l with
  | nil => exact List.Perm.refl _
  | cons s ss ih =>
    exact (insertSorted_perm s (sortStrings ss)).trans (List.Perm.cons s ih)

theorem insertSorted_sorted (s : String) (l : List String)
    (h : List.Sorted (fun a b => strLe a b = true) l) :
    List.Sorted (fun a b => strLe a b = true) (insertSorted s l) := by
  induction l with
  | nil => simp [insertSorted]
  | cons t ts ih =>
    simp only [insertSorted]
    by_cases hst : strLe s t = true
    · simp only [hst, if_true]
      refine List.sorted_cons.mpr ⟨?_, h⟩
      intro b hb
      rcases List.mem_cons.mp hb with rfl | hb
      · exact hst
      · exact strLe_trans hst (List.rel_of_sorted_cons h b hb)
    · have hts : strLe t s = true := by
        rcases strLe_total s t with h1 | h1
        · exact absurd h1 hst
        · exact h1
      simp only [hst, if_false]
      refine List.sorted_cons.mpr ⟨?_, ih (List.Sorted.of_cons h)⟩
      intro b hb
      have := (insertSorted_perm s ts).mem_iff.mp hb
      rcases List.mem_cons.mp this with rfl | hb2
      · exact hts
      · exact List.rel_of_sorted_cons h b hb2

theorem sortStrings_sorted (l : List String) :
    List.Sorted (fun a b => strLe a b = true) (sortStrings l) := by
  induction l with
  | nil => simp [sortStrings]
  | cons s ss ih => exact insertSorted_sorted s (sortStrings ss) ih

/-- Key algebraic fact behind the cache-key normalization: sorting is
invariant under permutation of the input list. -/
theorem sortStrings_eq_of_perm {l₁ l₂ : List String} (h : l₁.Perm l₂) :
    sortStrings l₁ = sortStrings l₂ := by
  haveI : IsAntisymm String (fun a b => strLe a b = true) :=
    ⟨fun _ _ h1 h2 => strLe_antisymm h1 h2⟩
  exact List.eq_of_perm_of_sorted
    ((sortStrings_perm l₁).trans (h.trans (sortStrings_perm l₂).symm))
    (sortStrings_sorted l₁) (sortStrings_sorted l₂)


/-! ## Claim C1 -/

/-- C1: the claimed bound `|cache| ≤ max_cache_size after any store` fails
on the code: with `max_cache_size = 1`, a full read leaves one entry (the
miss path evicts), but the follow-up derived-subset read stores a second
entry with no eviction pass, and the store ends the call above its bound. -/
theorem c1_derived_store_exceeds_bound :
    c1st1.cache.length = 1 ∧ c1st2.cache_hits = 1 ∧
    c1st2.max_cache_size = 1 ∧ c1st2.cache.length = 2 := by decide

/-! ## Claim C2 -/

/-- C2 counterexample: `["A","A"]` and `["A"]` are equal as sets, yet
`_normalize_cache_key` (which sorts but does not deduplicate) gives them
different keys. -/
theorem c2_duplicate_selection_distinct_keys :
    (["A", "A"] : List String).toFinset = (["A"] : List String).toFinset ∧
    normalize_cache_key (some "s") (some (.strList ["A", "A"])) ≠
      normalize_cache_key (some "s") (some (.strList ["A"])) := by decide

/-- C2 (amended): for every sheet identifier and all string column lists
that are permutations of one another, the normalized cache keys agree —
the key is invariant under input order, but not under duplication. -/
theorem c2_key_invariant_under_permutation (sheet_name : Option String)
    (A B : List String) (h : A.Perm B) :
    normalize_cache_key sheet_name (some (.strList A)) =
      normalize_cache_key sheet_name (some (.strList B)) := by
  have hsort := sortStrings_eq_of_perm h
  rcases A with _ | ⟨a, as⟩
  · have hB : B = [] := h.symm.eq_nil
    rw [hB]
  · rcases B with _ | ⟨b, bs⟩
    · exact absurd h.eq_nil (by simp)
    · simp only [normalize_cache_key, List.isEmpty_cons, hsort,
        Bool.false_eq_true, if_false]

/-- C2 witness: the permuted selections `["B","A"]` and `["A","B"]`
normalize to the same key. -/
theorem c2_key_invariant_witness :
    normalize_cache_key (some "s") (some (.strList ["B", "A"])) =
      normalize_cache_key (some "s") (some (.strList ["A", "B"])) :=
  c2_key_invariant_under_permutation (some "s") ["B", "A"] ["A", "B"] (by decide)

/-! ## Claim C3 -/

/-- C3: `_group_and_aggregate` with aggregation `nunique` on a group of
two equal values returns the group size 2, not the distinct count 1 — the
`count`/`nunique` branch is `groupby(...).size()` for both names, so the
`"nunique"` entry of `agg_funcs` is dead. -/
theorem c3_nunique_returns_group_size :
    group_and_aggregate dfNu "g" "nunique" (some "v") =
      Except.ok ⟨["g", "v"], [[Val.str "east", Val.int 2]]⟩ ∧
    ((dfNu.colValues "v").dedup).length = 1 := by decide

/-! ## Claim C4 -/

/-- C4: when `group_by` or `aggregation` is missing (`None` or the empty
string), `query` fails with the aggregation error and the reader state —
cache and counters — is returned untouched. -/
theorem c4_query_requires_group_and_aggregation (st : ReaderState)
    (env : FileEnv) (a : QueryArgs)
    (h : pyTruthy a.group_by = false ∨ pyTruthy a.aggregation = false) :
    query st env a = (st, .error .aggregationError) := by
  unfold query
  rcases h with h | h <;> simp [h]

/-- C4 witness: the all-defaults call fails with the aggregation error on
a fresh reader. -/
theorem c4_witness :
    pyTruthy qaEmpty.group_by = false ∧
    query (freshReader 10) envABC qaEmpty =
      ((freshReader 10), .error .aggregationError) :=
  ⟨by decide,
   c4_query_requires_group_and_aggregation (freshReader 10) envABC qaEmpty
     (Or.inl (by decide))⟩

/-! ## Claim C5 (counterexample part) -/

/-- C5 counterexample: `read(columns=["A","B","C"])` caches under the
`cols:A,B,C` key, not the `full` key, so the follow-up
`read(columns=["A"])` finds no `full` entry to slice: it is a plain miss
(decode again, miss counter up, hit counter untouched) — not the claimed
derived hit. -/
theorem c5_subset_after_columns_read_is_miss :
    c5st1.cache_misses = 1 ∧ c5st1.cache_hits = 0 ∧
    c5r2.1.cache_misses = 2 ∧ c5r2.1.cache_hits = 0 := by decide

/-! ## Claim C8 (counterexample part) -/

/-- C8 counterexample: one construction at call 1, then a stale discard
plus reconstruction at call 2 — two constructions in total (`next_id = 2`)
but three registry misses, because the stale-discard call increments the
miss counter twice. -/
theorem c8_stale_discard_counts_two_misses :
    c8st.misses = 3 ∧ c8st.next_id = 2 ∧ c8st.hits = 0 := by decide
/-! ## Claim C7 -/

theorem read_file_decode_error_cache (st : ReaderState) (env : FileEnv)
    (sheet_name : Option String) (parsed : Option UCParsed) (key : String)
    (mtime : Int) (e : RErr)
    (h : (read_file_decode st env sheet_name parsed key mtime).2 = .error e) :
    (read_file_decode st env sheet_name parsed key mtime).1.cache = st.cache := by
  unfold read_file_decode at h ⊢
  split at h
  · rfl
  · split at h <;> simp at h

theorem read_file_no_exact_error_cache (st : ReaderState) (env : FileEnv)
    (sheet_name : Option String) (parsed : Option UCParsed) (key : String)
    (mtime : Int) (e : RErr)
    (h : (read_file_no_exact st env sheet_name parsed key mtime).2 = .error e) :
    (read_file_no_exact st env sheet_name parsed key mtime).1.cache = st.cache := by
  unfold read_file_no_exact at h ⊢
  split at h
  · simp at h
  · exact read_file_decode_error_cache _ _ _ _ _ _ _ h

/-- C7: a `_read_file` call that fails — which happens exactly when both
cache probes miss and the decode raises — leaves the data cache exactly as
it was: entries are committed only after a fully successful decode, so a
retry starts from a clean cache state. -/
theorem c7_failed_decode_commits_nothing (st : ReaderState) (env : FileEnv)
    (sheet_name : Option String) (usecols : Option UCInput) (e : RErr)
    (h : (read_file st env sheet_name usecols).2 = .error e) :
    (read_file st env sheet_name usecols).1.cache = st.cache := by
  by_cases hc : st.enable_cache = true
  · cases hl : odLookup st.cache (normalize_cache_key sheet_name (parse_usecols usecols)) with
    | some fe =>
      by_cases hm : fe.mtime = env.mtime
      · simp only [read_file, hc, hl, hm, if_true] at h
        simp at h
      · simp only [read_file, hc, hl, hm, if_true, if_false] at h ⊢
        exact read_file_no_exact_error_cache _ _ _ _ _ _ _ h
    | none =>
      simp only [read_file, hc, hl, if_true] at h ⊢
      exact read_file_no_exact_error_cache _ _ _ _ _ _ _ h
  · rw [Bool.not_eq_true] at hc
    cases hd : env.decode sheet_name (parse_usecols usecols) with
    | error e2 =>
      simp only [read_file, hc, hd, Bool.false_eq_true, if_false]
    | ok df =>
      simp only [read_file, hc, hd, Bool.false_eq_true, if_false] at h
      simp at h

/-- C7 witness: a miss against a failing decoder on a fresh reader
propagates the decode error and leaves the (empty) cache empty. -/
theorem c7_witness :
    (read_file (freshReader 10) envFail none none).2 = .error .decodeError ∧
    (read_file (freshReader 10) envFail none none).1.cache =
      (freshReader 10).cache :=
  ⟨by decide,
   c7_failed_decode_commits_nothing (freshReader 10) envFail none none
     .decodeError (by decide)⟩

/-! ## Claim C9 -/

theorem odLookup_none_of_forall {β : Type} {l : List (String × β)} {k : String}
    (h : ∀ p ∈ l, p.1 ≠ k) : odLookup l k = none := by
  have hf : l.find? (fun p => p.1 = k) = none :=
    List.find?_eq_none.mpr (fun x hx => by simpa using h x hx)
  simp [odLookup, hf]

theorem forall_of_odLookup_none {β : Type} {l : List (String × β)} {k : String}
    (h : odLookup l k = none) : ∀ p ∈ l, p.1 ≠ k := by
  unfold odLookup at h
  cases hf : l.find? (fun p => p.1 = k) with
  | none => exact fun x hx => by simpa using List.find?_eq_none.mp hf x hx
  | some _ => rw [hf] at h; exact absurd h (by simp)

theorem odLookup_none_of_sub {β : Type} {l₁ l₂ : List (String × β)} {k : String}
    (hsub : ∀ p ∈ l₁, p ∈ l₂) (h : odLookup l₂ k = none) :
    odLookup l₁ k = none :=
  odLookup_none_of_forall (fun p hp => forall_of_odLookup_none h p (hsub p hp))

theorem odLookup_odErase_self {β : Type} (l : List (String × β)) (k : String) :
    odLookup (odErase l k) k = none := by
  apply odLookup_none_of_forall
  intro p hp
  have := List.of_mem_filter hp
  simpa using this

theorem odLookup_evictIdle_none {now idleT : Int} {l : List (String × MEntry)}
    {k : String} (h : odLookup l k = none) :
    odLookup (evictIdle now idleT l) k = none :=
  odLookup_none_of_sub (fun _ hp => List.mem_of_mem_filter hp) h

theorem odLookup_evictOverCap_none {maxR : Nat} {l : List (String × MEntry)}
    {k : String} (h : odLookup l k = none) :
    odLookup (evictOverCap maxR l) k = none := by
  unfold evictOverCap
  split
  · exact h
  · exact odLookup_none_of_sub (fun p hp => List.mem_of_mem_drop hp) h

theorem constructAndRegister_gone (st : MState) (req : MReq)
    (hex : req.fileExists = false)
    (habs : odLookup st.readers req.path = none) :
    (constructAndRegister st req).2 = .error .fileNotFound ∧
    odLookup (constructAndRegister st req).1.readers req.path = none := by
  unfold constructAndRegister cleanup_if_needed
  rw [hex]
  simp only [Bool.false_eq_true, if_false]
  exact ⟨by simp, odLookup_evictOverCap_none (odLookup_evictIdle_none habs)⟩

/-- C9: a `get_reader` call for a path whose file does not exist raises
`FileNotFoundError` — the vanished file makes any registered accessor
stale, so it is discarded, and the replacement construction fails before
registration — leaving no accessor registered for that path. -/
theorem c9_missing_file_fails_and_unregisters (st : MState) (req : MReq)
    (h : req.fileExists = false) :
    (get_reader st req).2 = .error .fileNotFound ∧
    odLookup (get_reader st req).1.readers req.path = none := by
  unfold get_reader
  cases hl : odLookup st.readers req.path with
  | some e =>
    have hmod : is_file_modified req e.last_used = true := by
      simp [is_file_modified, h]
    dsimp only
    rw [if_pos hmod]
    exact constructAndRegister_gone _ req h (odLookup_odErase_self _ _)
  | none => exact constructAndRegister_gone st req h hl

/-- C9 witness: with one accessor registered for `"p"`, a call after the
file vanished fails with `FileNotFound` and deregisters the path. -/
theorem c9_witness :
    reqGone.fileExists = false ∧
    (get_reader mStP reqGone).2 = .error .fileNotFound ∧
    odLookup (get_reader mStP reqGone).1.readers reqGone.path = none :=
  ⟨by decide, c9_missing_file_fails_and_unregisters mStP reqGone (by decide)⟩

/-! ## Claim C10 -/

theorem pyStrip_all_ws {p : List Char} (h : ∀ c ∈ p, isPyWs c = true) :
    pyStrip p = [] := by
  unfold pyStrip
  have h1 : p.dropWhile isPyWs = [] :=
    List.dropWhile_eq_nil_iff.mpr (fun c hc => h c hc)
  rw [h1]
  rfl

theorem splitChar_all_ws {l : List Char}
    (h : ∀ c ∈ l, c = ',' ∨ isPyWs c = true) :
    ∀ p ∈ splitChar ',' l, ∀ c ∈ p, isPyWs c = true := by
  induction l with
  | nil =>
    intro p hp
    simp only [splitChar, List.mem_singleton] at hp
    subst hp
    simp
  | cons c cs ih =>
    intro p hp
    have hc := h c (List.mem_cons_self c cs)
    have hcs : ∀ x ∈ cs, x = ',' ∨ isPyWs x = true :=
      fun x hx => h x (List.mem_cons_of_mem c hx)
    by_cases hcc : c = ','
    · rw [splitChar, if_pos hcc] at hp
      rcases List.mem_cons.mp hp with rfl | hp2
      · simp
      · exact ih hcs p hp2
    · have hws : isPyWs c = true := by
        rcases hc with rfl | hws
        · exact absurd rfl hcc
        · exact hws
      rw [splitChar, if_neg hcc] at hp
      cases hsp : splitChar ',' cs with
      | nil =>
        rw [hsp] at hp
        simp only [List.mem_singleton] at hp
        subst hp
        intro x hx
        rcases List.mem_cons.mp hx with rfl | hx2
        · exact hws
        · simp at hx2
      | cons q qs =>
        rw [hsp] at hp
        rcases List.mem_cons.mp hp with rfl | hp2
        · intro x hx
          rcases List.mem_cons.mp hx with rfl | hx2
          · exact hws
          · exact ih hcs q (by rw [hsp]; exact List.mem_cons_self q qs) x hx2
        · exact ih hcs p (by rw [hsp]; exact List.mem_cons_of_mem q hp2)

theorem parse_usecols_ws_comma_none {s : String}
    (hs : ∀ c ∈ s.data, c = ',' ∨ isPyWs c = true) :
    parse_usecols (some (.rawStr s)) = none := by
  have hcolon : s.data.contains ':' = false := by
    rw [Bool.eq_false_iff]
    intro hcon
    have hmem : ':' ∈ s.data := by
      simpa [List.contains] using hcon
    rcases hs ':' hmem with h1 | h1
    · exact absurd h1 (by decide)
    · exact absurd h1 (by decide)
  have hsplit := splitChar_all_ws hs
  have hmap : ∀ q ∈ (splitChar ',' s.data).map pyStrip, q.isEmpty = true := by
    intro q hq
    rcases List.mem_map.mp hq with ⟨p, hp, rfl⟩
    rw [pyStrip_all_ws (hsplit p hp)]
    rfl
  have hfilter :
      ((splitChar ',' s.data).map pyStrip).filter (fun piece => !piece.isEmpty) = [] := by
    apply List.filter_eq_nil_iff.mpr
    intro q hq
    rw [hmap q hq]
    decide
  have hcond : (s.data.contains ':' && pyIsAlpha (removeColonSpace s.data)) = false := by
    rw [hcolon]
    rfl
  rw [parse_usecols, if_neg (by rw [hcond]; exact Bool.false_ne_true)]
  simp only [hfilter]
  rfl

/-- C10: a `usecols` string containing only commas and whitespace parses
to no selection at all: the parsed selection is `None`, the cache key is
the sheet's `full` key, and the whole `_read_file` call behaves exactly as
a read of all columns. -/
theorem c10_blank_usecols_reads_all_columns (st : ReaderState) (env : FileEnv)
    (sheet_name : Option String) (s : String)
    (hs : ∀ c ∈ s.data, c = ',' ∨ isPyWs c = true) :
    parse_usecols (some (.rawStr s)) = none ∧
    normalize_cache_key sheet_name (parse_usecols (some (.rawStr s))) =
      normalize_cache_key sheet_name none ∧
    read_file st env sheet_name (some (.rawStr s)) =
      read_file st env sheet_name none := by
  have hp := parse_usecols_ws_comma_none hs
  refine ⟨hp, by rw [hp], ?_⟩
  unfold read_file
  rw [hp]
  rfl

/-- C10 witness: the string `" , "` (commas and whitespace only) behaves
exactly like no column selection. -/
theorem c10_witness :
    (∀ c ∈ (" , " : String).data, c = ',' ∨ isPyWs c = true) ∧
    parse_usecols (some (.rawStr " , ")) = none ∧
    normalize_cache_key none (parse_usecols (some (.rawStr " , "))) =
      normalize_cache_key none none ∧
    read_file (freshReader 10) envABC none (some (.rawStr " , ")) =
      read_file (freshReader 10) envABC none none :=
  ⟨by decide,
   c10_blank_usecols_reads_all_columns (freshReader 10) envABC none " , "
     (by decide)⟩

/-! ## Claim C6 -/

theorem filter_length_lt_of_mem {α : Type} {p : α → Bool} {l : List α} {x : α}
    (hx : x ∈ l) (hpx : p x = false) : (l.filter p).length < l.length := by
  induction l with
  | nil => simp at hx
  | cons a as ih =>
    rw [List.filter_cons]
    rcases List.mem_cons.mp hx with rfl | hx2
    · rw [hpx, if_neg Bool.false_ne_true]
      have := List.length_filter_le p as
      simp only [List.length_cons]
      omega
    · by_cases ha : p a = true
      · rw [if_pos ha]
        simp only [List.length_cons]
        exact Nat.succ_lt_succ (ih hx2)
      · rw [Bool.not_eq_true] at ha
        rw [ha, if_neg Bool.false_ne_true]
        have := ih hx2
        simp only [List.length_cons]
        omega

theorem odErase_length_lt {β : Type} {l : List (String × β)} {k : String}
    (h : odLookup l k ≠ none) : (odErase l k).length < l.length := by
  unfold odLookup at h
  cases hf : l.find? (fun q => q.1 = k) with
  | none => rw [hf] at h; simp at h
  | some q =>
    have hqm := List.mem_of_find?_eq_some hf
    have hqk := List.find?_some hf
    apply filter_length_lt_of_mem hqm
    simp only [decide_eq_true_eq] at hqk
    simp [hqk]

theorem odInsertMRU_length_le {β : Type} {l : List (String × β)} {k : String}
    {v : β} (h : odLookup l k ≠ none) :
    (odInsertMRU l k v).length ≤ l.length := by
  unfold odInsertMRU
  rw [List.length_append]
  have := odErase_length_lt h
  simp only [List.length_singleton]
  omega

theorem evictOverCap_length_lt (maxR : Nat) (l : List (String × MEntry))
    (h : 1 ≤ maxR) : (evictOverCap maxR l).length < maxR := by
  unfold evictOverCap
  split
  · assumption
  · rw [List.length_drop]
    omega

theorem constructAndRegister_length_le (st : MState) (req : MReq)
    (hmax : 1 ≤ st.max_readers) :
    (constructAndRegister st req).1.readers.length ≤ st.max_readers := by
  unfold constructAndRegister cleanup_if_needed
  dsimp only
  have hlt := evictOverCap_length_lt st.max_readers
    (evictIdle req.time st.idle_timeout st.readers) hmax
  split
  · simp only [List.length_append, List.length_singleton]
    omega
  · exact Nat.le_of_lt hlt

theorem get_reader_readers_le (st : MState) (req : MReq)
    (hmax : 1 ≤ st.max_readers) (hlen : st.readers.length ≤ st.max_readers) :
    (get_reader st req).1.readers.length ≤ st.max_readers := by
  unfold get_reader
  cases hl : odLookup st.readers req.path with
  | some e =>
    dsimp only
    cases hm : is_file_modified req e.last_used with
    | true =>
      simp only [if_true]
      exact constructAndRegister_length_le _ req hmax
    | false =>
      simp only [Bool.false_eq_true, if_false]
      calc (odInsertMRU st.readers req.path ⟨e.reader_id, req.time⟩).length
          ≤ st.readers.length := odInsertMRU_length_le (by rw [hl]; simp)
        _ ≤ st.max_readers := hlen
  | none =>
    exact constructAndRegister_length_le st req hmax

theorem get_reader_preserves_config (st : MState) (req : MReq) :
    (get_reader st req).1.max_readers = st.max_readers := by
  unfold get_reader constructAndRegister cleanup_if_needed
  cases odLookup st.readers req.path with
  | some e =>
    dsimp only
    split
    · split <;> rfl
    · rfl
  | none =>
    dsimp only
    split <;> rfl

theorem runGetReaders_cons (st : MState) (r : MReq) (rs : List MReq) :
    runGetReaders st (r :: rs) = runGetReaders (get_reader st r).1 rs := rfl

/-- C6: after any finite sequence of `get_reader` calls on a fresh
registry with a positive capacity, the registry holds at most
`max_readers` live reader instances — `_cleanup_if_needed` removes idle
entries and pops the least-recently-used entry while at or above capacity
before every insertion. -/
theorem c6_registry_never_exceeds_capacity (maxR : Nat) (idleT : Int)
    (reqs : List MReq) (h : 1 ≤ maxR) :
    (runGetReaders (managerInit maxR idleT) reqs).readers.length ≤ maxR := by
  suffices haux : ∀ (rs : List MReq) (st : MState), st.max_readers = maxR →
      st.readers.length ≤ maxR → (runGetReaders st rs).readers.length ≤ maxR by
    exact haux reqs (managerInit maxR idleT) rfl (by simp [managerInit])
  intro rs
  induction rs with
  | nil =>
    intro st hcfg hlen
    exact hlen
  | cons r rs ih =>
    intro st hcfg hlen
    rw [runGetReaders_cons]
    apply ih
    · rw [get_reader_preserves_config, hcfg]
    · have hstep := get_reader_readers_le st r
        (by rw [hcfg]; exact h) (by rw [hcfg]; exact hlen)
      rw [hcfg] at hstep
      exact hstep

/-- C6 witness: two calls on a fresh default-sized registry stay within
the bound. -/
theorem c6_witness :
    1 ≤ 5 ∧ (runGetReaders (managerInit 5 300) c6reqs).readers.length ≤ 5 :=
  ⟨by decide, c6_registry_never_exceeds_capacity 5 300 c6reqs (by decide)⟩

/-! ## Claim C8 (amended part) -/

theorem constructAndRegister_hits (st : MState) (req : MReq) :
    (constructAndRegister st req).1.hits = st.hits := by
  unfold constructAndRegister cleanup_if_needed
  split <;> rfl

theorem constructAndRegister_misses (st : MState) (req : MReq) :
    (constructAndRegister st req).1.misses = st.misses + 1 := by
  unfold constructAndRegister cleanup_if_needed
  split <;> rfl

theorem get_reader_hits (st : MState) (req : MReq) :
    (get_reader st req).1.hits =
      st.hits + (if isReuseCall st req = true then 1 else 0) := by
  unfold get_reader isReuseCall
  cases hl : odLookup st.readers req.path with
  | some e =>
    dsimp only
    cases hm : is_file_modified req e.last_used with
    | true =>
      rw [if_pos rfl, constructAndRegister_hits]
      simp
    | false =>
      simp
  | none =>
    rw [constructAndRegister_hits]
    simp

theorem get_reader_misses (st : MState) (req : MReq) :
    (get_reader st req).1.misses =
      st.misses + ((if isReuseCall st req = true then 0 else 1) +
        (if isStaleDiscard st req = true then 1 else 0)) := by
  unfold get_reader isReuseCall isStaleDiscard
  cases hl : odLookup st.readers req.path with
  | some e =>
    dsimp only
    cases hm : is_file_modified req e.last_used with
    | true =>
      rw [if_pos rfl, constructAndRegister_misses]
      simp
    | false =>
      simp
  | none =>
    rw [constructAndRegister_misses]
    simp

/-- C8 (amended): over any call sequence, the registry hit counter counts
exactly the calls that reuse an accessor, while the miss counter counts
every call that does not reuse one plus one extra for each stale discard —
so a single call that discards a stale accessor and reconstructs
contributes two misses, and a call whose construction fails contributes a
miss with no construction. -/
theorem c8_amended_counter_accounting (st : MState) (reqs : List MReq) :
    (runGetReaders st reqs).hits = st.hits + countReuse st reqs ∧
    (runGetReaders st reqs).misses =
      st.misses + countNonReuse st reqs + countStale st reqs := by
  induction reqs generalizing st with
  | nil => exact ⟨rfl, rfl⟩
  | cons r rs ih =>
    obtain ⟨ih1, ih2⟩ := ih (get_reader st r).1
    constructor
    · rw [runGetReaders_cons, ih1, get_reader_hits st r, countReuse]
      cases isReuseCall st r <;> simp
      all_goals omega
    · rw [runGetReaders_cons, ih2, get_reader_misses st r, countNonReuse,
        countStale]
      cases isReuseCall st r <;> cases isStaleDiscard st r <;> simp
      all_goals omega

/-! ## Claim C5 (amended part) -/

theorem key_full_eq : normalize_cache_key none none = "default:full" := by decide

theorem key_single_col (c : String) :
    normalize_cache_key none (some (.strList [c])) = "default:cols:" ++ c := by
  unfold normalize_cache_key
  dsimp only
  simp only [List.isEmpty_cons, Bool.false_eq_true, if_false]
  rw [show ("default" ++ ":cols:" : String) = "default:cols:" from by decide]
  rfl

theorem full_key_ne_single_col_key (c : String) :
    normalize_cache_key none none ≠
      normalize_cache_key none (some (.strList [c])) := by
  rw [key_full_eq, key_single_col]
  intro h
  have hlen := congrArg String.length h
  rw [String.length_append] at hlen
  have h1 : ("default:full" : String).length = 12 := by decide
  have h2 : ("default:cols:" : String).length = 13 := by decide
  omega

theorem read_file_derived_hit (st : ReaderState) (env : FileEnv)
    (sheet_name : Option String) (cs : List String) (fdf sub : DFrame)
    (hen : st.enable_cache = true)
    (hnoexact : odLookup st.cache
        (normalize_cache_key sheet_name (some (.strList cs))) = none)
    (hfull : odLookup st.cache (normalize_cache_key sheet_name none) =
      some ⟨fdf, env.mtime⟩)
    (hsel : fdf.select cs = some sub) :
    read_file st env sheet_name (some (.strList cs)) =
      ({ st with
          cache := odInsertMRU st.cache
            (normalize_cache_key sheet_name (some (.strList cs)))
            ⟨sub, env.mtime⟩,
          cache_hits := st.cache_hits + 1 },
       .ok sub) := by
  unfold read_file
  dsimp only [parse_usecols]
  rw [hen, if_pos rfl, hnoexact]
  unfold read_file_no_exact derivedSlice
  dsimp only
  rw [hfull]
  dsimp only
  rw [if_pos rfl, hsel]
  dsimp only
  rw [hen]

theorem read_file_fresh_full (env : FileEnv) (df : DFrame) (m : Nat)
    (hm : 1 ≤ m) (hdec : env.decode none none = .ok df) :
    read_file (freshReader m) env none none =
      ({ enable_cache := true, max_cache_size := m,
         cache := [(normalize_cache_key none none, ⟨df, env.mtime⟩)],
         row_count_cache := [], cache_hits := 0, cache_misses := 1 },
       .ok df) := by
  unfold read_file freshReader
  dsimp only [parse_usecols]
  rw [if_pos rfl]
  rw [show odLookup ([] : List (String × CacheEntry))
      (normalize_cache_key none none) = none from rfl]
  unfold read_file_no_exact derivedSlice read_file_decode
  try dsimp only
  rw [hdec]
  try dsimp only
  rw [if_pos rfl]
  unfold odEvict odInsertMRU odErase
  simp only [List.filter_nil, List.nil_append, List.length_singleton]
  rw [show (1 : Nat) - m = 0 from Nat.sub_eq_zero_of_le hm]
  simp only [List.drop_zero, Nat.zero_add]

/-- C5 (amended): after a full read (`columns=None`) on a fresh reader
with a positive cache bound, a follow-up `read(columns=["A"])` is served
as a derived hit — the hit counter goes up, the miss counter does not, and
the returned data is exactly the `A` column sliced from the first call's
result.  (The original claim's first call, `columns=["A","B","C"]`, caches
under a `cols:` key rather than the `full` key and gives no derived hit —
see the counterexample.) -/
theorem c5_amended_derived_hit_needs_full_read (env : FileEnv)
    (df sub : DFrame) (c : String) (m : Nat) (hm : 1 ≤ m)
    (hdec : env.decode none none = .ok df)
    (hsel : df.select [c] = some sub) :
    (read_file (freshReader m) env none none).2 = .ok df ∧
    (read_file (read_file (freshReader m) env none none).1 env none
        (some (.strList [c]))).2 = .ok sub ∧
    (read_file (read_file (freshReader m) env none none).1 env none
        (some (.strList [c]))).1.cache_hits =
      (read_file (freshReader m) env none none).1.cache_hits + 1 ∧
    (read_file (read_file (freshReader m) env none none).1 env none
        (some (.strList [c]))).1.cache_misses =
      (read_file (freshReader m) env none none).1.cache_misses := by
  have h1 := read_file_fresh_full env df m hm hdec
  have hne := full_key_ne_single_col_key c
  have hA := read_file_derived_hit (read_file (freshReader m) env none none).1
    env none [c] df sub
    (by rw [h1])
    (by rw [h1]; simp [odLookup, hne])
    (by rw [h1]; simp [odLookup])
    hsel
  refine ⟨by rw [h1], ?_, ?_, ?_⟩
  · rw [hA]
  · rw [hA]
  · rw [hA]

/-- C5 (amended) witness: on the concrete three-column file, the full
read followed by `read(columns=["A"])` produces the derived hit and the
`A` column of the first result. -/
theorem c5_amended_witness :
    1 ≤ 1 ∧ envABC.decode none none = .ok dfABC ∧
    dfABC.select ["A"] = some dfA ∧
    ((read_file (freshReader 1) envABC none none).2 = .ok dfABC ∧
     (read_file (read_file (freshReader 1) envABC none none).1 envABC none
         (some (.strList ["A"]))).2 = .ok dfA ∧
     (read_file (read_file (freshReader 1) envABC none none).1 envABC none
         (some (.strList ["A"]))).1.cache_hits =
       (read_file (freshReader 1) envABC none none).1.cache_hits + 1 ∧
     (read_file (read_file (freshReader 1) envABC none none).1 envABC none
         (some (.strList ["A"]))).1.cache_misses =
       (read_file (freshReader 1) envABC none none).1.cache_misses) :=
  ⟨by decide, by decide, by decide,
   c5_amended_derived_hit_needs_full_read envABC dfABC dfA "A" 1 (by decide)
     (by decide) (by decide)⟩
